import Mathlib

/-!
Verification of tools/pcap_summary.py and tools/uart-filter.py
(open-nexus-OS), shallowly embedded in Lean 4.

Bytes are modelled as `Nat` (values 0..255 where relevant); byte strings
as `List Nat`; Python text as `List Char` / `String`.
-/

namespace PcapSummary

/-- Python `Nat.toDigits`-style lowercase hex of a number (no padding). -/
def hexStr (n : Nat) : String := ⟨Nat.toDigits 16 n⟩

/-- Python `f"{x:02x}"`: lowercase hex, zero-padded to width 2. -/
def hex02 (n : Nat) : String := if n < 16 then "0" ++ hexStr n else hexStr n

/-- `mac_str`: `":".join(f"{x:02x}" for x in b)`. -/
def mac_str (b : List Nat) : String := String.intercalate ":" (b.map hex02)

/-- `ip_str`: `".".join(str(x) for x in b)`. -/
def ip_str (b : List Nat) : String := String.intercalate "." (b.map toString)

/-- A decoded pcap record (`PcapPkt` dataclass). -/
structure PcapPkt where
  ts_sec : Nat
  ts_usec : Nat
  data : List Nat
deriving Repr, DecidableEq

/-- Read a 4-byte unsigned integer at offset `i`, little- or big-endian
(`struct.unpack` with `<I` / `>I`). -/
def u32At (little : Bool) (bs : List Nat) (i : Nat) : Nat :=
  let b0 := bs.getD i 0
  let b1 := bs.getD (i+1) 0
  let b2 := bs.getD (i+2) 0
  let b3 := bs.getD (i+3) 0
  if little then b0 + 256 * b1 + 65536 * b2 + 16777216 * b3
  else b3 + 256 * b2 + 65536 * b1 + 16777216 * b0

/-- Read a 2-byte big-endian unsigned integer at offset `i`
(`struct.unpack("!H", ...)`). -/
def u16be (bs : List Nat) (i : Nat) : Nat :=
  256 * bs.getD i 0 + bs.getD (i+1) 0

/-- The record loop of `iter_pcap`: `rest` is the file content after the
24-byte global header.  Each iteration reads a 16-byte record header
(`f.read(16)`: zero bytes left ends the stream, 1–15 is fatal), then
`incl_len` bytes of packet data (short read is fatal). -/
def iterPcapLoop (little : Bool) (rest : List Nat) : Except String (List PcapPkt) :=
  if rest.length = 0 then .ok []
  else if rest.length < 16 then .error "pcap: short packet header"
  else
    let ph := rest.take 16
    let ts_sec := u32At little ph 0
    let ts_usec := u32At little ph 4
    let incl_len := u32At little ph 8
    let data := (rest.drop 16).take incl_len
    if data.length ≠ incl_len then .error "pcap: short packet data"
    else
      match iterPcapLoop little (rest.drop (16 + incl_len)) with
      | .error e => .error e
      | .ok pkts => .ok (⟨ts_sec, ts_usec, data⟩ :: pkts)
termination_by rest.length
decreasing_by
  simp only [List.length_drop]
  omega

/-- `iter_pcap` applied to the whole file content: checks the 24-byte
global header, chooses endianness from the magic, checks linktype
(field 7 of `endian + "IHHIIII"`, i.e. bytes 20..23), then iterates
records. -/
def iter_pcap (content : List Nat) : Except String (List PcapPkt) :=
  let gh := content.take 24
  if gh.length ≠ 24 then .error "pcap: short global header"
  else if gh.take 4 = [0xd4, 0xc3, 0xb2, 0xa1] then
    if u32At true gh 20 ≠ 1 then .error "pcap: unsupported linktype"
    else iterPcapLoop true (content.drop 24)
  else if gh.take 4 = [0xa1, 0xb2, 0xc3, 0xd4] then
    if u32At false gh 20 ≠ 1 then .error "pcap: unsupported linktype"
    else iterPcapLoop false (content.drop 24)
  else .error "pcap: unsupported magic"

/-- `parse_eth`: dst, src, big-endian ethertype, payload after byte 14. -/
def parse_eth (frame : List Nat) : Option (List Nat × List Nat × Nat × List Nat) :=
  if frame.length < 14 then none
  else some (frame.take 6, (frame.drop 6).take 6, u16be frame 12, frame.drop 14)

/-- `parse_arp`: fixed Ethernet/IPv4 ARP layout checks, then the five
fields `(oper, htype, sha, spa, tha, tpa)`. -/
def parse_arp (p : List Nat) : Option (Nat × Nat × List Nat × List Nat × List Nat × List Nat) :=
  if p.length < 28 then none
  else
    let htype := u16be p 0
    let ptype := u16be p 2
    let hlen := p.getD 4 0
    let plen := p.getD 5 0
    let oper := u16be p 6
    if htype ≠ 1 ∨ ptype ≠ 0x0800 ∨ hlen ≠ 6 ∨ plen ≠ 4 then none
    else some (oper, htype, (p.drop 8).take 6, (p.drop 14).take 4,
               (p.drop 18).take 6, (p.drop 24).take 4)

/-- `parse_ipv4`: version nibble must be 4, header length nibble × 4 must
be ≥ 20 and fit in the buffer; returns `(proto, src, dst, payload)`. -/
def parse_ipv4 (p : List Nat) : Option (Nat × List Nat × List Nat × List Nat) :=
  if p.length < 20 then none
  else
    let ver_ihl := p.getD 0 0
    let ver := ver_ihl / 16
    let ihl := (ver_ihl % 16) * 4
    if ver ≠ 4 ∨ ihl < 20 ∨ p.length < ihl then none
    else some (p.getD 9 0, (p.drop 12).take 4, (p.drop 16).take 4, p.drop ihl)

/-- `parse_udp`: needs 8 bytes, reads only the first four (the ports). -/
def parse_udp (p : List Nat) : Option (Nat × Nat) :=
  if p.length < 8 then none
  else some (u16be p 0, u16be p 2)

/-- `parse_tcp`: needs 20 bytes; data offset is the high nibble of byte
12 times 4 and must be ≥ 20 and fit; flags is byte 13, returned whole. -/
def parse_tcp (p : List Nat) : Option (Nat × Nat × Nat) :=
  if p.length < 20 then none
  else
    let off := (p.getD 12 0 / 16) * 4
    if off < 20 ∨ p.length < off then none
    else some (u16be p 0, u16be p 2, p.getD 13 0)

/-- The nine counters of `main`. -/
structure Counts where
  eth : Nat
  arp_req : Nat
  arp_rep : Nat
  ipv4 : Nat
  udp : Nat
  tcp : Nat
  tcp_syn : Nat
  tcp_synack : Nat
  tcp_rst : Nat
deriving Repr, DecidableEq

/-- All counters start at zero. -/
def initCounts : Counts := ⟨0, 0, 0, 0, 0, 0, 0, 0, 0⟩

/-- Mutable state of `main`'s loop: the counters, the number of detail
lines printed so far, and the detail lines themselves (in order). -/
structure StState where
  counts : Counts
  printed : Nat
  lines : List String
deriving Repr, DecidableEq

/-- The TCP flag rendering of `main`: the comma-join of the decoded flag
names (SYN = bit 1, ACK = bit 4, RST = bit 2, in that order), or
`flags=0x%02x` when the list is empty. -/
def tcpFlagStr (flags : Nat) : String :=
  let f := (if flags.testBit 1 then ["SYN"] else [])
        ++ (if flags.testBit 4 then ["ACK"] else [])
        ++ (if flags.testBit 2 then ["RST"] else [])
  if f ≠ [] then String.intercalate "," f else "flags=0x" ++ hex02 flags

/-- One iteration of `main`'s packet loop on a captured frame:
decode, bump counters, optionally emit one detail line (bounded by
`limit`, a Python `int`).  `tcp_ports` / `udp_ports` are the parsed
`--tcp-ports` / `--udp-ports` sets (empty list = no filter). -/
def stepPacket (tcp_ports udp_ports : List Nat) (limit : Int)
    (st : StState) (data : List Nat) : StState :=
  match parse_eth data with
  | none => st
  | some (_dst, _src, etype, pay) =>
    let st := { st with counts := { st.counts with eth := st.counts.eth + 1 } }
    if etype = 0x0806 then
      match parse_arp pay with
      | none => st
      | some (oper, _ht, sha, spa, _tha, tpa) =>
        if oper = 1 then
          let st := { st with counts := { st.counts with arp_req := st.counts.arp_req + 1 } }
          if (st.printed : Int) < limit then
            { st with printed := st.printed + 1,
                      lines := st.lines ++
                        ["ARP who-has " ++ ip_str tpa ++ " tell " ++ ip_str spa
                          ++ " (" ++ mac_str sha ++ ")"] }
          else st
        else if oper = 2 then
          let st := { st with counts := { st.counts with arp_rep := st.counts.arp_rep + 1 } }
          if (st.printed : Int) < limit then
            { st with printed := st.printed + 1,
                      lines := st.lines ++
                        ["ARP reply " ++ ip_str spa ++ " is-at " ++ mac_str sha] }
          else st
        else st
    else if etype ≠ 0x0800 then st
    else
      match parse_ipv4 pay with
      | none => st
      | some (proto, src_ip, dst_ip, l4) =>
        let st := { st with counts := { st.counts with ipv4 := st.counts.ipv4 + 1 } }
        if proto = 17 then
          match parse_udp l4 with
          | none => st
          | some (sport, dport) =>
            let st := { st with counts := { st.counts with udp := st.counts.udp + 1 } }
            if udp_ports ≠ [] ∧ sport ∉ udp_ports ∧ dport ∉ udp_ports then st
            else if (st.printed : Int) < limit then
              { st with printed := st.printed + 1,
                        lines := st.lines ++
                          ["UDP " ++ ip_str src_ip ++ ":" ++ toString sport
                            ++ " -> " ++ ip_str dst_ip ++ ":" ++ toString dport
                            ++ " len=" ++ toString l4.length] }
            else st
        else if proto = 6 then
          match parse_tcp l4 with
          | none => st
          | some (sport, dport, flags) =>
            let syn := flags.testBit 1
            let ack := flags.testBit 4
            let rst := flags.testBit 2
            let st := { st with counts :=
              { st.counts with
                tcp := st.counts.tcp + 1,
                tcp_syn := st.counts.tcp_syn + (if syn && !ack then 1 else 0),
                tcp_synack := st.counts.tcp_synack + (if syn && ack then 1 else 0),
                tcp_rst := st.counts.tcp_rst + (if rst then 1 else 0) } }
            if tcp_ports ≠ [] ∧ sport ∉ tcp_ports ∧ dport ∉ tcp_ports then st
            else if (st.printed : Int) < limit then
              { st with printed := st.printed + 1,
                        lines := st.lines ++
                          ["TCP " ++ ip_str src_ip ++ ":" ++ toString sport
                            ++ " -> " ++ ip_str dst_ip ++ ":" ++ toString dport
                            ++ " " ++ tcpFlagStr flags] }
            else st
        else st

/-- `main`'s packet loop over a list of captured frames. -/
def runPackets (tcp_ports udp_ports : List Nat) (limit : Int)
    (pkts : List (List Nat)) : StState :=
  pkts.foldl (stepPacket tcp_ports udp_ports limit) ⟨initCounts, 0, []⟩

/-- The final report block: `---` then the nine counters in order. -/
def summaryLines (c : Counts) : List String :=
  ["---",
   "eth: " ++ toString c.eth,
   "arp_req: " ++ toString c.arp_req,
   "arp_rep: " ++ toString c.arp_rep,
   "ipv4: " ++ toString c.ipv4,
   "udp: " ++ toString c.udp,
   "tcp: " ++ toString c.tcp,
   "tcp_syn: " ++ toString c.tcp_syn,
   "tcp_synack: " ++ toString c.tcp_synack,
   "tcp_rst: " ++ toString c.tcp_rst]

/-- The whole tool on a file's bytes and flag values: either a fatal
error, or the stdout lines (detail lines then the report). -/
def runTool (content : List Nat) (tcp_ports udp_ports : List Nat)
    (limit : Int) : Except String (List String) :=
  match iter_pcap content with
  | .error e => .error e
  | .ok pkts =>
    let st := runPackets tcp_ports udp_ports limit (pkts.map PcapPkt.data)
    .ok (st.lines ++ summaryLines st.counts)

/-- The counter-hierarchy invariant maintained by `main`'s loop. -/
def countsInv (c : Counts) : Prop :=
  c.arp_req + c.arp_rep ≤ c.eth ∧ c.ipv4 ≤ c.eth ∧ c.udp + c.tcp ≤ c.ipv4 ∧
  c.tcp_syn + c.tcp_synack ≤ c.tcp ∧ c.tcp_rst ≤ c.tcp

/-- Componentwise order on the nine counters. -/
def countsLe (a b : Counts) : Prop :=
  a.eth ≤ b.eth ∧ a.arp_req ≤ b.arp_req ∧ a.arp_rep ≤ b.arp_rep ∧
  a.ipv4 ≤ b.ipv4 ∧ a.udp ≤ b.udp ∧ a.tcp ≤ b.tcp ∧
  a.tcp_syn ≤ b.tcp_syn ∧ a.tcp_synack ≤ b.tcp_synack ∧ a.tcp_rst ≤ b.tcp_rst

/-- Each counter moves by at most one per packet. -/
def countsStepBound (a b : Counts) : Prop :=
  b.eth ≤ a.eth + 1 ∧ b.arp_req ≤ a.arp_req + 1 ∧ b.arp_rep ≤ a.arp_rep + 1 ∧
  b.ipv4 ≤ a.ipv4 + 1 ∧ b.udp ≤ a.udp + 1 ∧ b.tcp ≤ a.tcp + 1 ∧
  b.tcp_syn ≤ a.tcp_syn + 1 ∧ b.tcp_synack ≤ a.tcp_synack + 1 ∧
  b.tcp_rst ≤ a.tcp_rst + 1

/-- Sample minimal TCP segment: ports 80 → 81, data offset 5, flags `f`. -/
def tcpSeg (f : Nat) : List Nat :=
  [0, 80, 0, 81, 0, 0, 0, 0, 0, 0, 0, 0, 0x50, f, 0, 0, 0, 0, 0, 0]

/-- Sample IPv4 header: ihl 5, proto 6 (TCP), 10.0.0.1 → 10.0.0.2. -/
def ipv4HdrTcp : List Nat :=
  [0x45, 0, 0, 40, 0, 0, 0, 0, 64, 6, 0, 0, 10, 0, 0, 1, 10, 0, 0, 2]

/-- Sample Ethernet frame carrying a TCP segment with flags `f`. -/
def ethTcpFrame (f : Nat) : List Nat :=
  List.replicate 12 0 ++ [8, 0] ++ ipv4HdrTcp ++ tcpSeg f

/-- Sample UDP segment: ports 53 → 54, a UDP length field of 20 that
disagrees with the 12 captured bytes. -/
def udpSeg : List Nat := [0, 53, 0, 54, 0, 20, 0, 0, 1, 2, 3, 4]

/-- Sample IPv4 header: ihl 5, proto 17 (UDP), 10.0.0.1 → 10.0.0.2. -/
def ipv4HdrUdp : List Nat :=
  [0x45, 0, 0, 32, 0, 0, 0, 0, 64, 17, 0, 0, 10, 0, 0, 1, 10, 0, 0, 2]

/-- Sample Ethernet frame carrying the UDP segment. -/
def ethUdpFrame : List Nat :=
  List.replicate 12 0 ++ [8, 0] ++ ipv4HdrUdp ++ udpSeg

/-- A 20-byte IPv4 input with ihl = 5 and nothing after the header. -/
def ipv4Min20 : List Nat := 0x45 :: List.replicate 19 0

/-- A 20-byte IPv4 input with ihl = 4 (declared header length 16). -/
def ipv4Ihl4 : List Nat := 0x44 :: List.replicate 19 0

/-- The counter part of `stepPacket` on its own: the update `main`
applies to the nine counters for one captured frame.  Proved equal to
`(stepPacket _ _ _ st d).counts` below — the counter updates depend
neither on the port filters nor on the print limit. -/
def updateCounts (c : Counts) (data : List Nat) : Counts :=
  match parse_eth data with
  | none => c
  | some (_dst, _src, etype, pay) =>
    let c := { c with eth := c.eth + 1 }
    if etype = 0x0806 then
      match parse_arp pay with
      | none => c
      | some (oper, _ht, _sha, _spa, _tha, _tpa) =>
        if oper = 1 then { c with arp_req := c.arp_req + 1 }
        else if oper = 2 then { c with arp_rep := c.arp_rep + 1 }
        else c
    else if etype ≠ 0x0800 then c
    else
      match parse_ipv4 pay with
      | none => c
      | some (proto, _si, _di, l4) =>
        let c := { c with ipv4 := c.ipv4 + 1 }
        if proto = 17 then
          match parse_udp l4 with
          | none => c
          | some _ => { c with udp := c.udp + 1 }
        else if proto = 6 then
          match parse_tcp l4 with
          | none => c
          | some (_sp, _dp, flags) =>
            { c with
              tcp := c.tcp + 1,
              tcp_syn := c.tcp_syn +
                (if flags.testBit 1 && !flags.testBit 4 then 1 else 0),
              tcp_synack := c.tcp_synack +
                (if flags.testBit 1 && flags.testBit 4 then 1 else 0),
              tcp_rst := c.tcp_rst + (if flags.testBit 2 then 1 else 0) }
        else c

end PcapSummary

namespace UartFilter

/-- Python `line.rstrip("\n")` on a list of characters. -/
def rstripNl (l : List Char) : List Char :=
  (l.reverse.dropWhile (fun c => c = '\n')).reverse

/-- The even-indexed characters of a list (`l[0::2]`). -/
def everyOther : List Char → List Char
  | [] => []
  | [a] => [a]
  | a :: _ :: rest => a :: everyOther rest

/-- `_decode_escape`: if the newline-stripped body is nonempty, starts
with the sentinel `E` and has `E` at every even index, replace the line
by the odd-indexed characters (`body[1::2]`), re-appending a newline if
the original line ended with one; otherwise pass the line through. -/
def decode_escape (line : List Char) : List Char :=
  let stripped := rstripNl line
  if stripped = [] then line
  else if stripped.headD ' ' ≠ 'E' then line
  else if ¬ (everyOther stripped).all (fun c => c = 'E') then line
  else everyOther (stripped.drop 1)
       ++ (if line.getLast? = some '\n' then ['\n'] else [])

end UartFilter

open PcapSummary UartFilter

/-- C5: a captured frame shorter than 14 bytes is rejected by the
Ethernet decoder and leaves all nine counters unchanged. -/
theorem short_frame_not_counted (tp up : List Nat) (limit : Int) (st : StState)
    (data : List Nat) (h : data.length < 14) :
    parse_eth data = none ∧ (stepPacket tp up limit st data).counts = st.counts := by
  have hpe : parse_eth data = none := by simp [parse_eth, h]
  exact ⟨hpe, by simp [stepPacket, hpe]⟩

/-- Witness for C5 at the 3-byte frame `[1, 2, 3]`. -/
theorem short_frame_not_counted_witness :
    parse_eth [1, 2, 3] = none ∧
    (stepPacket [] [] 120 ⟨initCounts, 0, []⟩ [1, 2, 3]).counts = initCounts :=
  short_frame_not_counted [] [] 120 ⟨initCounts, 0, []⟩ [1, 2, 3] (by decide)

/-- C2: for a successfully decoded TCP segment the counters `tcp`,
`tcp_syn`, `tcp_synack` and `tcp_rst` are updated the same way for every
`--tcp-ports` / `--udp-ports` / `--limit` value: the filter never
reaches the counter updates. -/
theorem tcp_counts_ignore_port_filter
    (tp up : List Nat) (limit : Int) (st : StState)
    (data dst src pay si di l4 : List Nat) (sp dp flags : Nat)
    (heth : parse_eth data = some (dst, src, 0x0800, pay))
    (hip : parse_ipv4 pay = some (6, si, di, l4))
    (htcp : parse_tcp l4 = some (sp, dp, flags)) :
    (stepPacket tp up limit st data).counts =
      { st.counts with
        eth := st.counts.eth + 1,
        ipv4 := st.counts.ipv4 + 1,
        tcp := st.counts.tcp + 1,
        tcp_syn := st.counts.tcp_syn +
          (if flags.testBit 1 && !flags.testBit 4 then 1 else 0),
        tcp_synack := st.counts.tcp_synack +
          (if flags.testBit 1 && flags.testBit 4 then 1 else 0),
        tcp_rst := st.counts.tcp_rst + (if flags.testBit 2 then 1 else 0) } := by
  simp only [stepPacket, heth]
  norm_num [hip, htcp]
  split_ifs <;> rfl

/-- Witness for C2: a SYN+ACK (flags `0x12`) segment bumps `tcp` and
`tcp_synack` even under a `--tcp-ports` filter that excludes both ports. -/
theorem tcp_counts_ignore_port_filter_witness :
    (stepPacket [9999] [] 120 ⟨initCounts, 0, []⟩ (ethTcpFrame 0x12)).counts =
      { initCounts with eth := 1, ipv4 := 1, tcp := 1, tcp_synack := 1 } := by
  rw [tcp_counts_ignore_port_filter [9999] [] 120 ⟨initCounts, 0, []⟩
      (ethTcpFrame 0x12) [0, 0, 0, 0, 0, 0] [0, 0, 0, 0, 0, 0]
      (ipv4HdrTcp ++ tcpSeg 0x12) [10, 0, 0, 1] [10, 0, 0, 2] (tcpSeg 0x12)
      80 81 0x12 (by decide) (by decide) (by decide)]
  decide

/-- C8: the tool's stdout is a function of the file bytes and the three
flag values alone — equal inputs give byte-identical output. -/
theorem runTool_deterministic (c1 c2 tp1 tp2 up1 up2 : List Nat) (l1 l2 : Int)
    (hc : c1 = c2) (ht : tp1 = tp2) (hu : up1 = up2) (hl : l1 = l2) :
    runTool c1 tp1 up1 l1 = runTool c2 tp2 up2 l2 := by
  subst hc; subst ht; subst hu; subst hl; rfl

/-- Witness for C8 at a concrete (empty) input file. -/
theorem runTool_deterministic_witness :
    runTool [] [] [] 120 = runTool [] [] [] 120 :=
  runTool_deterministic [] [] [] [] [] [] 120 120 rfl rfl rfl rfl

/-- C1 counterexample: the packet with flags byte `0x01` (FIN only) is
printed with the hexadecimal fallback `flags=0x01` although its flags
byte is not 0 — refuting the claim that the fallback is used only when
the flags byte is 0. -/
theorem tcp_hex_fallback_counterexample :
    (stepPacket [] [] 120 ⟨initCounts, 0, []⟩ (ethTcpFrame 0x01)).lines =
      ["TCP 10.0.0.1:80 -> 10.0.0.2:81 flags=0x01"] ∧ (0x01 : Nat) ≠ 0 := by
  exact ⟨by decide, by decide⟩

set_option maxRecDepth 8192 in
/-- C1 (amended): the hexadecimal fallback is used exactly when none of
the three decoded flags SYN (bit 1), ACK (bit 4), RST (bit 2) is set in
the flags byte, i.e. when `flags & 0x16 = 0`; otherwise the set names
are comma-joined. -/
theorem tcp_hex_fallback_iff_no_decoded_flag :
    ∀ flags : Nat, flags < 256 →
      (tcpFlagStr flags = "flags=0x" ++ hex02 flags ↔ flags &&& 0x16 = 0) := by
  decide

/-- Witness for C1's amended theorem at flags byte 0. -/
theorem tcp_hex_fallback_iff_no_decoded_flag_witness :
    tcpFlagStr 0 = "flags=0x" ++ hex02 0 :=
  (tcp_hex_fallback_iff_no_decoded_flag 0 (by decide)).mpr (by decide)

/-- C3: `parse_ipv4` returns no value exactly for the four stated
reasons; on success the payload starts at the declared header length;
the two 20-byte boundary inputs behave as stated (ihl = 5 accepted with
empty payload, ihl = 4 rejected). -/
theorem parse_ipv4_error_conditions :
    (∀ p : List Nat,
      (parse_ipv4 p = none ↔
        p.length < 20 ∨ p.getD 0 0 / 16 ≠ 4 ∨ (p.getD 0 0 % 16) * 4 < 20 ∨
        p.length < (p.getD 0 0 % 16) * 4) ∧
      (∀ proto si di pay, parse_ipv4 p = some (proto, si, di, pay) →
        pay = p.drop ((p.getD 0 0 % 16) * 4))) ∧
    parse_ipv4 ipv4Min20 = some (0, [0, 0, 0, 0], [0, 0, 0, 0], []) ∧
    parse_ipv4 ipv4Ihl4 = none := by
  refine ⟨fun p => ⟨?_, ?_⟩, by decide, by decide⟩
  · by_cases h1 : p.length < 20
    · simp [parse_ipv4, h1]
    · by_cases h2 : p.getD 0 0 / 16 ≠ 4 ∨ (p.getD 0 0 % 16) * 4 < 20 ∨
          p.length < (p.getD 0 0 % 16) * 4
      · simp only [parse_ipv4, if_neg h1, if_pos h2]
        simp only [ne_eq, true_iff]
        tauto
      · simp only [parse_ipv4, if_neg h1, if_neg h2]
        push_neg at h2
        simp only [reduceCtorEq, false_iff]
        push_neg
        omega
  · intro proto si di pay h
    by_cases h1 : p.length < 20
    · simp [parse_ipv4, h1] at h
    · by_cases h2 : p.getD 0 0 / 16 ≠ 4 ∨ (p.getD 0 0 % 16) * 4 < 20 ∨
          p.length < (p.getD 0 0 % 16) * 4
      · simp only [parse_ipv4, if_neg h1, if_pos h2] at h
        exact absurd h (by simp)
      · simp only [parse_ipv4, if_neg h1, if_neg h2, Option.some.injEq,
          Prod.mk.injEq] at h
        exact h.2.2.2.symm

/-- Witness for C3 at the minimal 20-byte header: the payload is what
remains past the 20 declared header bytes, i.e. nothing. -/
theorem parse_ipv4_error_conditions_witness :
    ([] : List Nat) = ipv4Min20.drop ((ipv4Min20.getD 0 0 % 16) * 4) :=
  (parse_ipv4_error_conditions.1 ipv4Min20).2 0 [0, 0, 0, 0] [0, 0, 0, 0] []
    (by decide)

/-- C10: a printed UDP detail line reports `len=` as the length of the
whole captured IPv4 payload (UDP header included), and `parse_udp` reads
nothing past the first four payload bytes besides the length test — in
particular the UDP length field (bytes 4–5) is never consulted. -/
theorem udp_len_is_payload_length :
    (∀ (tp up : List Nat) (limit : Int) (st : StState)
       (data dst src pay si di l4 : List Nat) (sp dp : Nat),
      parse_eth data = some (dst, src, 0x0800, pay) →
      parse_ipv4 pay = some (17, si, di, l4) →
      parse_udp l4 = some (sp, dp) →
      ¬(up ≠ [] ∧ sp ∉ up ∧ dp ∉ up) →
      (st.printed : Int) < limit →
      (stepPacket tp up limit st data).lines =
        st.lines ++ ["UDP " ++ ip_str si ++ ":" ++ toString sp ++ " -> " ++
                     ip_str di ++ ":" ++ toString dp ++ " len=" ++
                     toString l4.length]) ∧
    (∀ p q : List Nat, p.length = q.length → p.take 4 = q.take 4 →
      parse_udp p = parse_udp q) := by
  constructor
  · intro tp up limit st data dst src pay si di l4 sp dp heth hip hudp hfil hlim
    simp only [stepPacket, heth]
    norm_num [hip, hudp]
    rw [if_neg hfil, if_pos hlim]
  · intro p q hlen htake
    have hg : ∀ i, i < 4 → p.getD i 0 = q.getD i 0 := by
      intro i hi
      have h1 : (p.take 4).getD i 0 = p.getD i 0 := by
        simp [List.getD_eq_getElem?_getD, List.getElem?_take, hi]
      have h2 : (q.take 4).getD i 0 = q.getD i 0 := by
        simp [List.getD_eq_getElem?_getD, List.getElem?_take, hi]
      rw [← h1, ← h2, htake]
    unfold parse_udp u16be
    rw [hlen, hg 0 (by omega), hg 1 (by omega), hg 2 (by omega),
        hg 3 (by omega)]

/-- Witness for C10: the sample UDP frame is printed with `len=12` (the
captured payload size) although its UDP length field says 20. -/
theorem udp_len_is_payload_length_witness :
    (stepPacket [] [] 120 ⟨initCounts, 0, []⟩ ethUdpFrame).lines =
      [] ++ ["UDP " ++ ip_str [10, 0, 0, 1] ++ ":" ++ toString 53 ++ " -> " ++
             ip_str [10, 0, 0, 2] ++ ":" ++ toString 54 ++ " len=" ++
             toString (udpSeg.length)] :=
  udp_len_is_payload_length.1 [] [] 120 ⟨initCounts, 0, []⟩ ethUdpFrame
    [0, 0, 0, 0, 0, 0] [0, 0, 0, 0, 0, 0] (ipv4HdrUdp ++ udpSeg)
    [10, 0, 0, 1] [10, 0, 0, 2] udpSeg 53 54
    (by decide) (by decide) (by decide) (by simp) (by decide)

/-- C4: magic selects the endianness of field decoding; any other magic,
a non-Ethernet linktype, a short global header, a 1–15 byte record
header read, or a short packet body is a fatal error; a zero-byte read
at a record boundary ends the sequence normally. -/
theorem iter_pcap_framing :
    (∀ content : List Nat, content.length < 24 →
        iter_pcap content = .error "pcap: short global header") ∧
    (∀ content : List Nat, 24 ≤ content.length →
        content.take 4 = [0xd4, 0xc3, 0xb2, 0xa1] →
        u32At true (content.take 24) 20 = 1 →
        iter_pcap content = iterPcapLoop true (content.drop 24)) ∧
    (∀ content : List Nat, 24 ≤ content.length →
        content.take 4 = [0xa1, 0xb2, 0xc3, 0xd4] →
        u32At false (content.take 24) 20 = 1 →
        iter_pcap content = iterPcapLoop false (content.drop 24)) ∧
    (∀ content : List Nat, 24 ≤ content.length →
        content.take 4 ≠ [0xd4, 0xc3, 0xb2, 0xa1] →
        content.take 4 ≠ [0xa1, 0xb2, 0xc3, 0xd4] →
        iter_pcap content = .error "pcap: unsupported magic") ∧
    (∀ content : List Nat, 24 ≤ content.length →
        content.take 4 = [0xd4, 0xc3, 0xb2, 0xa1] →
        u32At true (content.take 24) 20 ≠ 1 →
        iter_pcap content = .error "pcap: unsupported linktype") ∧
    (∀ content : List Nat, 24 ≤ content.length →
        content.take 4 = [0xa1, 0xb2, 0xc3, 0xd4] →
        u32At false (content.take 24) 20 ≠ 1 →
        iter_pcap content = .error "pcap: unsupported linktype") ∧
    (∀ little : Bool, iterPcapLoop little [] = .ok []) ∧
    (∀ (little : Bool) (rest : List Nat), 1 ≤ rest.length → rest.length ≤ 15 →
        iterPcapLoop little rest = .error "pcap: short packet header") ∧
    (∀ (little : Bool) (rest : List Nat), 16 ≤ rest.length →
        rest.length - 16 < u32At little (rest.take 16) 8 →
        iterPcapLoop little rest = .error "pcap: short packet data") := by
  have htk : ∀ content : List Nat, (content.take 24).take 4 = content.take 4 := by
    intro content
    rw [List.take_take]
    norm_num
  have hgh : ∀ content : List Nat, 24 ≤ content.length →
      (content.take 24).length = 24 := by
    intro content h
    simp [List.length_take]
    omega
  refine ⟨?_, ?_, ?_, ?_, ?_, ?_, ?_, ?_, ?_⟩
  · intro content h
    have hne : (content.take 24).length ≠ 24 := by
      simp [List.length_take]
      omega
    simp only [iter_pcap]
    rw [if_pos hne]
  · intro content h hm hl
    rw [iter_pcap]
    simp only [hgh content h, htk content, hm, hl]
    norm_num
  · intro content h hm hl
    rw [iter_pcap]
    simp only [hgh content h, htk content, hm, hl]
    norm_num
  · intro content h hm1 hm2
    rw [iter_pcap]
    simp only [hgh content h, htk content]
    rw [if_neg (by omega), if_neg hm1, if_neg hm2]
  · intro content h hm hl
    rw [iter_pcap]
    simp only [hgh content h, htk content, hm]
    norm_num [hl]
  · intro content h hm hl
    simp only [iter_pcap, htk content]
    have hne : content.take 4 ≠ [0xd4, 0xc3, 0xb2, 0xa1] := by
      rw [hm]; decide
    rw [if_neg (by simp [hgh content h]), if_neg hne, if_pos hm, if_pos hl]
  · intro little
    rw [iterPcapLoop]
    norm_num
  · intro little rest h1 h15
    rw [iterPcapLoop]
    rw [if_neg (by omega), if_pos (by omega)]
  · intro little rest h16 hshort
    rw [iterPcapLoop]
    rw [if_neg (by omega), if_neg (by omega)]
    have hdata : ((rest.drop 16).take (u32At little (rest.take 16) 8)).length ≠
        u32At little (rest.take 16) 8 := by
      simp [List.length_take, List.length_drop]
      omega
    rw [if_pos hdata]

/-- Witness for C4 at concrete inputs: an empty file, an all-zero
24-byte header (bad magic), a valid little-endian header with linktype 1
and no records, a 1-byte record-header read, and a record whose declared
captured length exceeds the remaining bytes. -/
theorem iter_pcap_framing_witness :
    iter_pcap [] = .error "pcap: short global header" ∧
    iter_pcap (List.replicate 24 0) = .error "pcap: unsupported magic" ∧
    iter_pcap ([0xd4, 0xc3, 0xb2, 0xa1] ++ List.replicate 16 0 ++ [1, 0, 0, 0]) =
      iterPcapLoop true [] ∧
    iterPcapLoop true [0] = .error "pcap: short packet header" ∧
    iterPcapLoop true [0, 0, 0, 0, 0, 0, 0, 0, 1, 0, 0, 0, 0, 0, 0, 0] =
      .error "pcap: short packet data" :=
  ⟨iter_pcap_framing.1 [] (by decide),
   iter_pcap_framing.2.2.2.1 (List.replicate 24 0) (by decide) (by decide)
     (by decide),
   iter_pcap_framing.2.1 ([0xd4, 0xc3, 0xb2, 0xa1] ++ List.replicate 16 0 ++
     [1, 0, 0, 0]) (by decide) (by decide) (by decide),
   iter_pcap_framing.2.2.2.2.2.2.2.1 true [0] (by decide) (by decide),
   iter_pcap_framing.2.2.2.2.2.2.2.2 true
     [0, 0, 0, 0, 0, 0, 0, 0, 1, 0, 0, 0, 0, 0, 0, 0] (by decide) (by decide)⟩

/-- The counters of one loop iteration are exactly `updateCounts`,
whatever the port filters, limit, printed count and lines are. -/
theorem stepPacket_counts (tp up : List Nat) (l : Int) (st : StState)
    (d : List Nat) :
    (stepPacket tp up l st d).counts = updateCounts st.counts d := by
  unfold stepPacket updateCounts
  repeat' split
  all_goals try rfl
  all_goals try (dsimp only; split_ifs <;> rfl)
  all_goals simp_all

/-- With a non-positive print limit an iteration only updates counters:
`printed` and the emitted lines are untouched. -/
theorem stepPacket_nonpos_limit (tp up : List Nat) (l : Int) (st : StState)
    (d : List Nat) (hl : l ≤ 0) :
    stepPacket tp up l st d = { st with counts := updateCounts st.counts d } := by
  unfold stepPacket updateCounts
  repeat' split
  all_goals try rfl
  all_goals try (dsimp only; split_ifs <;> first | (exfalso; omega) | rfl)
  all_goals simp_all

/-- One counter update preserves the hierarchy invariant, never
decreases a counter, and moves each counter by at most one. -/
theorem updateCounts_facts (c : Counts) (d : List Nat) (hinv : countsInv c) :
    countsInv (updateCounts c d) ∧
    countsLe c (updateCounts c d) ∧ countsStepBound c (updateCounts c d) := by
  unfold countsInv at hinv
  unfold countsInv countsLe countsStepBound
  unfold updateCounts
  repeat' split
  all_goals simp_all
  all_goals omega

/-- The final counters of the packet loop are a fold of `updateCounts`:
no dependence on filters, limit or printing state. -/
theorem runPackets_counts (tp up : List Nat) (l : Int)
    (pkts : List (List Nat)) :
    (runPackets tp up l pkts).counts = pkts.foldl updateCounts initCounts := by
  suffices h : ∀ st : StState,
      (pkts.foldl (stepPacket tp up l) st).counts =
        pkts.foldl updateCounts st.counts by
    exact h ⟨initCounts, 0, []⟩
  induction pkts with
  | nil => intro st; rfl
  | cons d rest ih =>
    intro st
    simp only [List.foldl_cons]
    rw [ih, stepPacket_counts]

/-- With a non-positive print limit the packet loop emits no lines. -/
theorem runPackets_lines_nonpos (tp up : List Nat) (l : Int) (hl : l ≤ 0)
    (pkts : List (List Nat)) :
    ∀ st : StState, (pkts.foldl (stepPacket tp up l) st).lines = st.lines := by
  induction pkts with
  | nil => intro st; rfl
  | cons d rest ih =>
    intro st
    simp only [List.foldl_cons]
    rw [ih, stepPacket_nonpos_limit tp up l st d hl]

/-- C6: the final counter values do not depend on `--limit`, and with
`--limit 0` no detail line is printed at all while the counters are the
same as with any other limit. -/
theorem counters_independent_of_limit (tp up : List Nat) (l1 l2 : Int)
    (pkts : List (List Nat)) :
    (runPackets tp up l1 pkts).counts = (runPackets tp up l2 pkts).counts ∧
    (runPackets tp up 0 pkts).lines = [] := by
  refine ⟨?_, ?_⟩
  · rw [runPackets_counts, runPackets_counts]
  · exact runPackets_lines_nonpos tp up 0 le_rfl pkts ⟨initCounts, 0, []⟩

/-- C9: every loop iteration preserves the counter hierarchy, never
decreases a counter and bumps each counter at most once; hence the
hierarchy holds for the final report of any input. -/
theorem counter_hierarchy_invariants :
    (∀ (tp up : List Nat) (l : Int) (st : StState) (d : List Nat),
        countsInv st.counts →
        countsInv (stepPacket tp up l st d).counts ∧
        countsLe st.counts (stepPacket tp up l st d).counts ∧
        countsStepBound st.counts (stepPacket tp up l st d).counts) ∧
    (∀ (tp up : List Nat) (l : Int) (pkts : List (List Nat)),
        countsInv (runPackets tp up l pkts).counts) := by
  constructor
  · intro tp up l st d hinv
    rw [stepPacket_counts]
    exact updateCounts_facts st.counts d hinv
  · intro tp up l pkts
    rw [runPackets_counts]
    have hfold : ∀ c, countsInv c → countsInv (pkts.foldl updateCounts c) := by
      induction pkts with
      | nil => intro c h; exact h
      | cons d rest ih => intro c h; exact ih _ (updateCounts_facts c d h).1
    exact hfold initCounts (by simp [countsInv, initCounts])

/-- Witness for C9: one SYN+ACK packet from the all-zero counter state. -/
theorem counter_hierarchy_invariants_witness :
    countsInv (stepPacket [] [] 120 ⟨initCounts, 0, []⟩ (ethTcpFrame 0x12)).counts ∧
    countsLe initCounts
      (stepPacket [] [] 120 ⟨initCounts, 0, []⟩ (ethTcpFrame 0x12)).counts ∧
    countsStepBound initCounts
      (stepPacket [] [] 120 ⟨initCounts, 0, []⟩ (ethTcpFrame 0x12)).counts :=
  counter_hierarchy_invariants.1 [] [] 120 ⟨initCounts, 0, []⟩ (ethTcpFrame 0x12)
    (by simp [countsInv, initCounts])

/-- `l[0::2]` of a nonempty list starts with its head. -/
theorem everyOther_cons (a : Char) (t : List Char) :
    everyOther (a :: t) = a :: everyOther (t.drop 1) := by
  cases t <;> rfl

/-- `dropWhile` is the identity when no element satisfies the predicate. -/
theorem dropWhile_eq_self_of_not (p : Char → Bool) :
    ∀ l : List Char, (∀ x ∈ l, p x = false) → l.dropWhile p = l
  | [], _ => rfl
  | a :: t, h => by
    simp [List.dropWhile_cons, h a (List.mem_cons_self a t)]

/-- `rstrip("\n")` of a newline-free body plus an optional final
newline recovers the body. -/
theorem rstripNl_append (body : List Char) (nl : Bool) (h : '\n' ∉ body) :
    rstripNl (body ++ (if nl then ['\n'] else [])) = body := by
  have hbody : (body.reverse).dropWhile (fun c => c = '\n') = body.reverse := by
    apply dropWhile_eq_self_of_not
    intro x hx
    rw [List.mem_reverse] at hx
    simp only [decide_eq_false_iff_not]
    exact fun he => h (he ▸ hx)
  cases nl <;> simp [rstripNl, hbody]

/-- C7: with `--strip-escape`, a line whose even-indexed characters (of
the newline-stripped body) are all the sentinel `E` is replaced by its
odd-indexed characters (trailing newline preserved if present); every
other line passes through unchanged. -/
theorem decode_escape_spec (body : List Char) (nl : Bool) (h : '\n' ∉ body) :
    ((everyOther body).all (fun c => c = 'E') = true →
      decode_escape (body ++ (if nl then ['\n'] else [])) =
        everyOther (body.drop 1) ++ (if nl then ['\n'] else [])) ∧
    ((everyOther body).all (fun c => c = 'E') = false →
      decode_escape (body ++ (if nl then ['\n'] else [])) =
        body ++ (if nl then ['\n'] else [])) := by
  have hstrip := rstripNl_append body nl h
  have hlast : ((body ++ (if nl then ['\n'] else [])).getLast? = some '\n') ↔
      nl = true := by
    cases nl with
    | true =>
      show ((body ++ ['\n']).getLast? = some '\n') ↔ true = true
      rw [List.getLast?_append_cons]
      simp
    | false =>
      show ((body ++ []).getLast? = some '\n') ↔ false = true
      rw [List.append_nil]
      refine iff_of_false ?_ (by simp)
      intro hc
      obtain ⟨hne, hx⟩ := List.mem_getLast?_eq_getLast (Option.mem_def.mpr hc)
      exact h (by rw [hx]; exact List.getLast_mem hne)
  cases body with
  | nil =>
    constructor
    · intro _
      simp only [decode_escape]
      rw [hstrip]
      simp [everyOther]
    · intro hfalse
      simp [everyOther] at hfalse
  | cons a t =>
    constructor
    · intro hall
      have hhead : a = 'E' := by
        have hmem : a ∈ everyOther (a :: t) := by
          rw [everyOther_cons]
          exact List.mem_cons_self _ _
        simpa using List.all_eq_true.mp hall _ hmem
      simp only [decode_escape]
      rw [hstrip]
      rw [if_neg (by simp), if_neg (by simp [hhead]), if_neg (by simp [hall])]
      cases nl with
      | true =>
        rw [if_pos (hlast.mpr rfl)]
        rfl
      | false =>
        have hn : ¬((a :: t) ++ (if false then ['\n'] else [])).getLast? =
            some '\n' := by
          intro hc
          exact absurd (hlast.mp hc) (by simp)
        rw [if_neg hn]
        rfl
    · intro hall
      by_cases ha : a = 'E'
      · simp only [decode_escape]
        rw [hstrip]
        rw [if_neg (by simp), if_neg (by simp [ha]), if_pos (by simp [hall])]
      · simp only [decode_escape]
        rw [hstrip]
        rw [if_neg (by simp), if_pos (by simpa using ha)]

/-- Witness for C7: the escaped line `EhEi` followed by a newline
decodes to `hi` followed by a newline. -/
theorem decode_escape_spec_witness :
    decode_escape (['E', 'h', 'E', 'i'] ++ (if true then ['\n'] else [])) =
      everyOther (['E', 'h', 'E', 'i'].drop 1) ++
        (if true then ['\n'] else []) :=
  (decode_escape_spec ['E', 'h', 'E', 'i'] true (by decide)).1 (by decide)
